import Mathlib

/-!
# Verification of the Joplin plugin-loading core

A shallow embedding of `packages/lib/services/plugins/PluginService.ts`:
manifest-block extraction from a JS bundle, identifier assignment, version
gating, duplicate detection, batch orchestration with per-candidate failure
isolation, and the identifier-to-plugin registry.

External collaborators (the JSON parser, the manifest schema validator and
the file-system driver) are modelled as components of an `Env` record;
theorems constrain their outputs through hypotheses.  State effects (the
registry, dispatched store actions, log lines, and engine hand-offs) are
threaded explicitly through an `SState` record.

String operations mirror the JavaScript string methods used by the source
(`trim`, `split`, `indexOf(p) === 0`, `toLowerCase`, `endsWith`, `substr`),
implemented over character lists so that every definition evaluates by
kernel reduction.
-/

set_option autoImplicit false

deriving instance DecidableEq for Except

namespace PluginSpec

/-! ## Character-list string operations (JavaScript string methods) -/

def chList (s : String) : List Char := s.data

def chStr (l : List Char) : String := ⟨l⟩

/-- JavaScript `String.prototype.trim`. -/
def jTrim (s : String) : String :=
  chStr (((chList s).dropWhile Char.isWhitespace).reverse.dropWhile Char.isWhitespace).reverse

def splitChars (sep : Char) : List Char → List String
  | [] => [""]
  | c :: rest =>
    if c = sep then
      "" :: splitChars sep rest
    else
      match splitChars sep rest with
      | [] => [chStr [c]]
      | t :: ts => chStr (c :: t.data) :: ts

/-- JavaScript `String.prototype.split` with a single-character separator. -/
def jSplit (s : String) (sep : Char) : List String := splitChars sep (chList s)

def leadsChars : List Char → List Char → Bool
  | [], _ => true
  | _ :: _, [] => false
  | a :: as, b :: bs => a = b && leadsChars as bs

/-- JavaScript `s.indexOf(p) === 0` / `String.prototype.startsWith`. -/
def jStartsWith (s p : String) : Bool := leadsChars (chList p) (chList s)

/-- JavaScript `String.prototype.endsWith`. -/
def jEndsWith (s p : String) : Bool := leadsChars (chList p).reverse (chList s).reverse

/-- JavaScript `String.prototype.toLowerCase` (ASCII range). -/
def jToLower (s : String) : String := chStr ((chList s).map Char.toLower)

/-- JavaScript `String.prototype.substr(0, n)`. -/
def jTake (s : String) (n : Nat) : String := chStr ((chList s).take n)

/-- JavaScript `Array.prototype.join`. -/
def jIntercalate (sep : String) (xs : List String) : String :=
  chStr (List.intercalate (chList sep) (xs.map chList))

def digitsToNat : List Char → Nat → Option Nat
  | [], acc => some acc
  | c :: rest, acc => if c.isDigit then digitsToNat rest (acc * 10 + (c.toNat - 48)) else none

/-- Numeric value of a digit string (0 when not fully numeric). -/
def jToNat (s : String) : Nat := (digitsToNat (chList s) 0).getD 0

/-! ## External collaborators modelled from the spec -/

/-- Modelled from the spec: semantic-version ordering (the `compare-versions`
npm package, an external collaborator of this core): a version string is a
dot-separated list of numerals, compared segment-by-segment, missing
segments counting as zero. -/
def allZero : List Nat → Bool
  | [] => true
  | b :: bs => b = 0 && allZero bs

def compareNatLists : List Nat → List Nat → Int
  | [], bs => if allZero bs then 0 else -1
  | a :: as, [] => if a = 0 then compareNatLists as [] else 1
  | a :: as, b :: bs => if a < b then -1 else if b < a then 1 else compareNatLists as bs

def parseVersion (s : String) : List Nat := (jSplit s '.').map jToNat

def compareVersions (a b : String) : Int := compareNatLists (parseVersion a) (parseVersion b)

def uslugStep (acc : List Char) (c : Char) : List Char :=
  if c.isAlphanum then acc ++ [c.toLower]
  else if acc = [] || acc.getLast? = some '-' then acc else acc ++ ['-']

/-- Modelled from the spec: the slug normalizer (the `uslug` npm package, an
external collaborator): lower-cased, URL/filename-safe, with each
non-alphanumeric run collapsed to a single separator. -/
def uslug (s : String) : String := chStr ((chList s).foldl uslugStep [])

/-- Identifier Assigner (`makePluginId` in the source): slug-normalize the
source name and truncate to 32 characters (`uslug(source).substr(0,32)`). -/
def makePluginId (source : String) : String := jTake (uslug source) 32

/-- Modelled from the spec: `path-utils` `filename` (repository code outside
the embedded file): the last path component with its file extension
removed. -/
def filename (p : String) : String :=
  let base := ((jSplit p '/').getLast?).getD ""
  let parts := jSplit base '.'
  if parts.length ≤ 1 then base else jIntercalate "." parts.dropLast

/-- Modelled from the spec: `path-utils` `dirname` (repository code outside
the embedded file): the path with its last component removed. -/
def dirname (p : String) : String := jIntercalate "/" (jSplit p '/').dropLast

/-- Modelled from the spec: `path-utils` `rtrimSlashes` (repository code
outside the embedded file): removes trailing path separators. -/
def rtrimSlashes (p : String) : String :=
  chStr (((chList p).reverse.dropWhile (fun c => c = '/' || c = '\\')).reverse)

/-! ## Data model -/

/-- The raw object produced by `JSON.parse` on the manifest text, restricted
to the one field this core reads (`app_min_version`); all other
extension-declared metadata is carried opaquely in `extra`. -/
structure ManifestObj where
  app_min_version : Option String
  extra : List (String × String)
deriving DecidableEq

/-- The typed manifest produced by the external validator
(`manifestFromObject`), restricted to the field this core reads. -/
structure Manifest where
  app_min_version : String
  extra : List (String × String)
deriving DecidableEq

/-- Modelled from the spec: the Extension entity (the `Plugin` class,
repository code outside the embedded file): identifier, base directory,
typed manifest, raw script text, enabled flag (initially true), and the
deprecation notices attached via `deprecationNotice(version, message)`. -/
structure Plugin where
  id : String
  baseDir : String
  manifest : Manifest
  scriptText : String
  enabled : Bool
  deprecationNotices : List (String × String)
deriving DecidableEq

/-- Attach a deprecation notice to the entity, tagged with the application
version at which the missing-field requirement becomes an error. -/
def Plugin.deprecationNotice (p : Plugin) (ver msg : String) : Plugin :=
  { p with deprecationNotices := p.deprecationNotices ++ [(ver, msg)] }

/-- A store action, shaped like the dispatched registration event. -/
structure Action where
  type : String
  pluginId : String
  views : List (String × String)
  contentScripts : List (String × String)
deriving DecidableEq

/-- The error taxonomy of a single extension load. -/
inductive LoadErr where
  | manifestNotFound
  | invalidManifestJson
  | validationFailed (msg : String)
  | duplicateIdentifier (id : String)
  | ioError (path : String)
deriving DecidableEq

structure ParsedBundle where
  scriptText : String
  manifestText : String
deriving DecidableEq

structure DirEntry where
  path : String
  isDirectory : Bool
deriving DecidableEq

/-- JavaScript keyed object access `m[k]`: the value stored under a string
key, `none` when absent. -/
def alookup {α : Type} (k : String) : List (String × α) → Option α
  | [] => none
  | (k1, v1) :: rest => if k1 = k then some v1 else alookup k rest

/-- The file-system driver (`shim.fsDriver()`), modelled as lookup tables:
file path to content, and directory path to entry listing. -/
structure FS where
  files : List (String × String)
  dirListing : List (String × List DirEntry)

def FS.readFile (fs : FS) (p : String) : Except LoadErr String :=
  match alookup p fs.files with
  | some content => .ok content
  | none => .error (.ioError p)

def FS.fsExists (fs : FS) (p : String) : Bool :=
  (alookup p fs.files).isSome || (alookup p fs.dirListing).isSome

def FS.readDirStats (fs : FS) (p : String) : Except LoadErr (List DirEntry) :=
  match alookup p fs.dirListing with
  | some es => .ok es
  | none => .error (.ioError p)

/-- The service environment: the running host version plus the external
collaborators (`JSON.parse`, the manifest validator, the fs driver). -/
structure Env where
  appVersion : String
  jsonParse : String → Option ManifestObj
  validate : ManifestObj → Except String Manifest
  fs : FS

/-- The observable service state: the registry (`plugins_`), the actions
dispatched to the store, info/error log lines, and the ids handed to the
execution engine. -/
structure SState where
  plugins : List (String × Plugin)
  dispatched : List Action
  infoLog : List String
  errorLog : List (String × LoadErr)
  ran : List String
deriving DecidableEq

def initState : SState := ⟨[], [], [], [], []⟩

def logInfo (st : SState) (msg : String) : SState :=
  { st with infoLog := st.infoLog ++ [msg] }

def logError (st : SState) (msg : String) (e : LoadErr) : SState :=
  { st with errorLog := st.errorLog ++ [(msg, e)] }

def dispatchAction (st : SState) (a : Action) : SState :=
  { st with dispatched := st.dispatched ++ [a] }

/-- JavaScript keyed object assignment `m[k] = v`: replaces in place when
the key exists, appends otherwise. -/
def storeSet (m : List (String × Plugin)) (k : String) (v : Plugin) : List (String × Plugin) :=
  if (alookup k m).isSome then m.map (fun kv => if kv.1 = k then (k, v) else kv)
  else m ++ [(k, v)]

/-! ## Manifest Block Extractor (`parsePluginJsBundle`) -/

def openingMarker : String := "/* joplin-manifest:"

def closingMarker : String := "*/"

/-- The `StateInManifest` phase of the scanner: each trimmed line is
accumulated until a line that begins with the closing marker stops the
scan. -/
def collectManifest : List String → List String
  | [] => []
  | l :: rest =>
    if jStartsWith (jTrim l) closingMarker then []
    else jTrim l :: collectManifest rest

/-- The `StateStarted` phase of the scanner: lines are skipped until one
trims exactly to the opening marker, then collection starts. -/
def scanManifestLines : List String → List String
  | [] => []
  | l :: rest =>
    if jTrim l = openingMarker then collectManifest rest
    else scanManifestLines rest

/-- `parsePluginJsBundle`: split the bundle into lines, run the two-state
scanner, fail when the accumulator is empty, otherwise return the joined
manifest lines together with the full original bundle as script text. -/
def parsePluginJsBundle (jsBundleString : String) : Except LoadErr ParsedBundle :=
  let manifestLines := scanManifestLines (jSplit jsBundleString '\n')
  if manifestLines.isEmpty then .error .manifestNotFound
  else .ok ⟨jsBundleString, jIntercalate "\n" manifestLines⟩

/-! ## Plugin Loader (`loadPlugin`) -/

/-- JavaScript falsiness of `manifestObj.app_min_version`: absent or the
empty string. -/
def jsFalsyStr : Option String → Bool
  | none => true
  | some s => s.isEmpty

/-- The defaulting step: `if (!manifestObj.app_min_version)
manifestObj.app_min_version = '1.4'`. -/
def applyDefaultMinVersion (o : ManifestObj) : ManifestObj :=
  if jsFalsyStr o.app_min_version then ⟨some "1.4", o.extra⟩ else o

def disabledMessage (pluginId : String) : String :=
  "PluginService: Plugin \"" ++ pluginId ++ "\" was disabled because it requires a newer version of Joplin."

def appMinVersionNoticeMessage : String :=
  "The manifest must contain an \"app_min_version\" key, which should be the minimum version of the app you support. It was automatically set to \"1.4\", but please update your manifest.json file."

def couldNotLoadMessage (path : String) : String :=
  "PluginService: Could not load plugin: " ++ path

def skipUnderscoreMessage (path : String) : String :=
  "PluginService: Plugin name starts with \"_\" and has not been loaded: " ++ path

def loadingFromMessage (path : String) : String :=
  "PluginService: Loading plugin from " ++ path

/-- The `PLUGIN_ADD` registration event: the extension's identifier with
empty view and content-script maps. -/
def pluginAddAction (pluginId : String) : Action :=
  ⟨"PLUGIN_ADD", pluginId, [], []⟩

/-- `loadPlugin`: parse the manifest text, default a missing
`app_min_version` to `"1.4"` (owing a deprecation notice), validate,
reject a duplicate identifier before constructing the entity, then gate on
the host version: strictly older host disables the entity with an info log
and no dispatch, otherwise a single `PLUGIN_ADD` action is dispatched. -/
def loadPlugin (env : Env) (st : SState) (pluginId baseDir manifestText scriptText : String) :
    SState × Except LoadErr Plugin :=
  let baseDir1 := rtrimSlashes baseDir
  match env.jsonParse manifestText with
  | none => (st, .error .invalidManifestJson)
  | some obj =>
    let showNotice := jsFalsyStr obj.app_min_version
    match env.validate (applyDefaultMinVersion obj) with
    | .error msg => (st, .error (.validationFailed msg))
    | .ok manifest =>
      if (alookup pluginId st.plugins).isSome then
        (st, .error (.duplicateIdentifier pluginId))
      else
        let plugin : Plugin := ⟨pluginId, baseDir1, manifest, scriptText, true, []⟩
        let gated :=
          if compareVersions env.appVersion manifest.app_min_version < 0 then
            (logInfo st (disabledMessage pluginId), { plugin with enabled := false })
          else
            (dispatchAction st (pluginAddAction pluginId), plugin)
        let plugin2 :=
          if showNotice then
            gated.2.deprecationNotice "1.5" appMinVersionNoticeMessage
          else gated.2
        (gated.1, .ok plugin2)

/-- `loadPluginFromString`: extract the manifest block from the bundle and
delegate to `loadPlugin` with the caller-supplied identifier. -/
def loadPluginFromString (env : Env) (st : SState) (pluginId baseDir jsBundleString : String) :
    SState × Except LoadErr Plugin :=
  let baseDir1 := rtrimSlashes baseDir
  match parsePluginJsBundle jsBundleString with
  | .error e => (st, .error e)
  | .ok r => loadPlugin env st pluginId baseDir1 r.manifestText r.scriptText

/-! ## Path Resolver (`loadPluginFromPath`) -/

/-- `loadPluginFromPath`: a `.js` path is read as a bundle, its identifier
being `filename(path)` verbatim; a directory path falls back to its `dist`
subdirectory when `manifest.json` is absent at the root, reads `index.js`
and `manifest.json` separately, and derives the identifier via
`makePluginId(filename(path))`. -/
def loadPluginFromPath (env : Env) (st : SState) (path : String) :
    SState × Except LoadErr Plugin :=
  let path1 := rtrimSlashes path
  if jEndsWith (jToLower path1) ".js" then
    match env.fs.readFile path1 with
    | .error e => (st, .error e)
    | .ok content => loadPluginFromString env st (filename path1) (dirname path1) content
  else
    let distPath :=
      if env.fs.fsExists (path1 ++ "/manifest.json") then path1 else path1 ++ "/dist"
    let st1 := logInfo st (loadingFromMessage path1)
    match env.fs.readFile (distPath ++ "/index.js") with
    | .error e => (st1, .error e)
    | .ok scriptText =>
      match env.fs.readFile (distPath ++ "/manifest.json") with
      | .error e => (st1, .error e)
      | .ok manifestText =>
        loadPlugin env st1 (makePluginId (filename path1)) distPath manifestText scriptText

/-! ## Run Coordination (`runPlugin`) and Batch Orchestrator -/

/-- `runPlugin`: unconditional keyed insertion into the registry
(`this.plugins_[plugin.id] = plugin`), then hand-off to the execution
engine (recorded in `ran`). -/
def runPlugin (st : SState) (plugin : Plugin) : SState :=
  { st with
    plugins := storeSet st.plugins plugin.id plugin
    ran := st.ran ++ [plugin.id] }

/-- The body of the batch loop for one candidate: skip when the candidate
path starts with `_` (info log), otherwise load and on success immediately
run, and on failure log one error naming the candidate path. -/
def processPath (env : Env) (st : SState) (pluginPath : String) : SState :=
  if jStartsWith pluginPath "_" then
    logInfo st (skipUnderscoreMessage pluginPath)
  else
    match loadPluginFromPath env st pluginPath with
    | (st1, .ok plugin) => runPlugin st1 plugin
    | (st1, .error e) => logError st1 (couldNotLoadMessage pluginPath) e

/-- The argument of `loadAndRunPlugins`: a directory to enumerate or an
explicit ordered path list. -/
inductive PluginsInput where
  | dir (d : String)
  | paths (ps : List String)

/-- Candidate enumeration: an explicit list is used verbatim; a directory
keeps its immediate entries that are directories or `.js` files, prefixed
with the directory path. -/
def candidatePaths (env : Env) (input : PluginsInput) : Except LoadErr (List String) :=
  match input with
  | .paths ps => .ok ps
  | .dir d =>
    match env.fs.readDirStats d with
    | .error e => .error e
    | .ok stats =>
      .ok ((stats.filter
              (fun s => s.isDirectory || jEndsWith (jToLower s.path) ".js")).map
            (fun s => d ++ "/" ++ s.path))

/-- `loadAndRunPlugins`: sequentially process every candidate; individual
failures are caught inside `processPath`, only the directory enumeration
itself can fail. -/
def loadAndRunPlugins (env : Env) (st : SState) (input : PluginsInput) :
    SState × Except LoadErr Unit :=
  match candidatePaths env input with
  | .error e => (st, .error e)
  | .ok ps => (ps.foldl (processPath env) st, .ok ())

/-! ## Shared lemmas -/

theorem loadPlugin_plugins_eq (env : Env) (st : SState) (a b c d : String) :
    (loadPlugin env st a b c d).1.plugins = st.plugins := by
  simp only [loadPlugin]
  repeat' split
  all_goals rfl

theorem loadPlugin_errorLog_eq (env : Env) (st : SState) (a b c d : String) :
    (loadPlugin env st a b c d).1.errorLog = st.errorLog := by
  simp only [loadPlugin]
  repeat' split
  all_goals rfl

theorem loadPluginFromString_plugins_eq (env : Env) (st : SState) (a b t : String) :
    (loadPluginFromString env st a b t).1.plugins = st.plugins := by
  simp only [loadPluginFromString]
  split
  · rfl
  · exact loadPlugin_plugins_eq ..

theorem loadPluginFromString_errorLog_eq (env : Env) (st : SState) (a b t : String) :
    (loadPluginFromString env st a b t).1.errorLog = st.errorLog := by
  simp only [loadPluginFromString]
  split
  · rfl
  · exact loadPlugin_errorLog_eq ..

theorem loadPluginFromPath_plugins_eq (env : Env) (st : SState) (p : String) :
    (loadPluginFromPath env st p).1.plugins = st.plugins := by
  simp only [loadPluginFromPath]
  repeat' split
  all_goals
    first
      | rfl
      | (rw [loadPluginFromString_plugins_eq])
      | (rw [loadPlugin_plugins_eq] ; rfl)

theorem loadPluginFromPath_errorLog_eq (env : Env) (st : SState) (p : String) :
    (loadPluginFromPath env st p).1.errorLog = st.errorLog := by
  simp only [loadPluginFromPath]
  repeat' split
  all_goals
    first
      | rfl
      | (rw [loadPluginFromString_errorLog_eq])
      | (rw [loadPlugin_errorLog_eq] ; rfl)

theorem loadPlugin_ok_id (env : Env) (st st' : SState) (pid b mt sc : String) (p : Plugin)
    (h : loadPlugin env st pid b mt sc = (st', .ok p)) : p.id = pid := by
  simp only [loadPlugin] at h
  repeat' split at h
  all_goals have h2 := congrArg Prod.snd h
  all_goals simp only [Except.ok.injEq] at h2
  all_goals first
    | (cases h2 ; done)
    | (subst h2 ; rfl)

theorem loadPlugin_ok_lookup (env : Env) (st st' : SState) (pid b mt sc : String) (p : Plugin)
    (h : loadPlugin env st pid b mt sc = (st', .ok p)) : alookup pid st.plugins = none := by
  simp only [loadPlugin] at h
  repeat' split at h
  all_goals have h2 := congrArg Prod.snd h
  all_goals simp only [Except.ok.injEq] at h2
  all_goals first
    | (cases h2 ; done)
    | (rename_i hdup _ _ ; exact Option.not_isSome_iff_eq_none.mp hdup)

theorem loadPluginFromString_ok_id (env : Env) (st st' : SState) (pid b t : String) (p : Plugin)
    (h : loadPluginFromString env st pid b t = (st', .ok p)) : p.id = pid := by
  simp only [loadPluginFromString] at h
  split at h
  · have h2 := congrArg Prod.snd h
    cases h2
  · exact loadPlugin_ok_id _ _ _ _ _ _ _ _ h

theorem storeSet_of_lookup_none (m : List (String × Plugin)) (k : String) (v : Plugin)
    (h : alookup k m = none) : storeSet m k v = m ++ [(k, v)] := by
  unfold storeSet
  rw [h]
  rfl

theorem alookup_append_singleton_self (m : List (String × Plugin)) (k : String) (v : Plugin)
    (h : alookup k m = none) : alookup k (m ++ [(k, v)]) = some v := by
  induction m with
  | nil => simp [alookup]
  | cons kv rest ih =>
    obtain ⟨k1, v1⟩ := kv
    by_cases hk : k1 = k
    · simp [alookup, hk] at h
    · simp only [alookup, hk, if_false] at h
      simp only [List.cons_append, alookup, hk, if_false]
      exact ih h

theorem alookup_none_not_mem (m : List (String × Plugin)) (k : String)
    (h : alookup k m = none) : k ∉ m.map Prod.fst := by
  induction m with
  | nil => simp
  | cons kv rest ih =>
    obtain ⟨k1, v1⟩ := kv
    by_cases hk : k1 = k
    · simp [alookup, hk] at h
    · simp only [alookup, hk, if_false] at h
      simp only [List.map, List.mem_cons]
      rintro (rfl | hmem)
      · exact hk rfl
      · exact ih h hmem

theorem scanManifestLines_append_no_marker (pre rest : List String)
    (h : ∀ l ∈ pre, jTrim l ≠ openingMarker) :
    scanManifestLines (pre ++ rest) = scanManifestLines rest := by
  induction pre with
  | nil => rfl
  | cons a as ih =>
    simp only [List.cons_append, scanManifestLines]
    rw [if_neg (h a (by simp))]
    exact ih (fun l hl => h l (by simp [hl]))

theorem scanManifestLines_no_marker (ls : List String)
    (h : ∀ l ∈ ls, jTrim l ≠ openingMarker) :
    scanManifestLines ls = [] := by
  have h0 := scanManifestLines_append_no_marker ls [] h
  simpa using h0

theorem collectManifest_append_inner (inner rest : List String)
    (h : ∀ l ∈ inner, jStartsWith (jTrim l) closingMarker = false) :
    collectManifest (inner ++ rest) = inner.map jTrim ++ collectManifest rest := by
  induction inner with
  | nil => rfl
  | cons a as ih =>
    simp only [List.cons_append, collectManifest, List.map]
    rw [if_neg (by simp [h a (by simp)])]
    simp only [List.append_eq]
    rw [ih (fun l hl => h l (by simp [hl]))]

/-! ## Claim theorems: Manifest Block Extractor -/

/-- C7: for every bundle text containing a well-formed manifest block — an
opening marker line, at least one inner line none of which begins (after
trimming) with the closing marker, and a closing marker line — extraction
succeeds, the manifest text is the trimmed inner lines joined with
newlines, and the script text is the full original bundle unchanged. -/
theorem parsePluginJsBundle_wellformed (s : String) (pre inner post : List String) (op cl : String)
    (hsplit : jSplit s '\n' = pre ++ op :: (inner ++ cl :: post))
    (hpre : ∀ l ∈ pre, jTrim l ≠ openingMarker)
    (hop : jTrim op = openingMarker)
    (hinner : ∀ l ∈ inner, jStartsWith (jTrim l) closingMarker = false)
    (hne : inner ≠ [])
    (hcl : jStartsWith (jTrim cl) closingMarker = true) :
    parsePluginJsBundle s = .ok ⟨s, jIntercalate "\n" (inner.map jTrim)⟩ := by
  have hscan : scanManifestLines (jSplit s '\n') = inner.map jTrim := by
    rw [hsplit, scanManifestLines_append_no_marker pre _ hpre]
    simp only [scanManifestLines]
    rw [if_pos hop]
    rw [collectManifest_append_inner inner _ hinner]
    simp [collectManifest, hcl]
  simp only [parsePluginJsBundle, hscan]
  rw [if_neg (by simpa using hne)]

/-- Witness for C7: a five-line bundle with a header line, the marker, two
inner lines (one needing trimming), the closing marker and a code line. -/
theorem parsePluginJsBundle_wellformed_witness :
    parsePluginJsBundle "header\n/* joplin-manifest:\nline1\n line2 \n*/\nrest"
      = .ok ⟨"header\n/* joplin-manifest:\nline1\n line2 \n*/\nrest", "line1\nline2"⟩ :=
  parsePluginJsBundle_wellformed "header\n/* joplin-manifest:\nline1\n line2 \n*/\nrest"
    ["header"] ["line1", " line2 "] ["rest"] "/* joplin-manifest:" "*/"
    (by decide) (by decide) (by decide) (by decide) (by decide) (by decide)

/-- C5 counterexample: a bundle that lacks the closing marker line entirely
(no line starts with the closing marker) is nonetheless accepted — the
claim that it must fail with ManifestNotFound is false on this input. -/
theorem parsePluginJsBundle_missing_close_accepted :
    ((jSplit "/* joplin-manifest:\nxyz" '\n').all
        (fun l => !(jStartsWith (jTrim l) closingMarker))) = true
    ∧ parsePluginJsBundle "/* joplin-manifest:\nxyz"
        = .ok ⟨"/* joplin-manifest:\nxyz", "xyz"⟩ := by
  exact ⟨by decide, by decide⟩

/-- C5 (amended): extraction fails with ManifestNotFound exactly in the
empty-accumulator cases — when no line trims to the opening marker, or
when the opening marker is present but nothing is accumulated after it
(the marker is the last line, or the very next line begins with the
closing marker).  A missing closing marker alone does not cause failure. -/
theorem parsePluginJsBundle_manifest_not_found (s : String) :
    ((∀ l ∈ jSplit s '\n', jTrim l ≠ openingMarker) →
       parsePluginJsBundle s = .error .manifestNotFound)
    ∧ (∀ pre op rest, jSplit s '\n' = pre ++ op :: rest →
        (∀ l ∈ pre, jTrim l ≠ openingMarker) →
        jTrim op = openingMarker →
        (rest = [] ∨ ∃ c rest2, rest = c :: rest2 ∧ jStartsWith (jTrim c) closingMarker = true) →
        parsePluginJsBundle s = .error .manifestNotFound) := by
  constructor
  · intro h
    simp [parsePluginJsBundle, scanManifestLines_no_marker _ h]
  · intro pre op rest hsplit hpre hop hrest
    have hscan : scanManifestLines (jSplit s '\n') = [] := by
      rw [hsplit, scanManifestLines_append_no_marker pre _ hpre]
      simp only [scanManifestLines]
      rw [if_pos hop]
      rcases hrest with rfl | ⟨c, rest2, rfl, hc⟩
      · rfl
      · simp [collectManifest, hc]
    simp [parsePluginJsBundle, hscan]

/-- Witness for C5 (amended): a bundle with no opening marker fails, and a
bundle whose closing marker immediately follows the opening marker fails. -/
theorem parsePluginJsBundle_manifest_not_found_witness :
    parsePluginJsBundle "hello\nworld" = .error .manifestNotFound
    ∧ parsePluginJsBundle "/* joplin-manifest:\n*/" = .error .manifestNotFound :=
  ⟨(parsePluginJsBundle_manifest_not_found "hello\nworld").1 (by decide),
   (parsePluginJsBundle_manifest_not_found "/* joplin-manifest:\n*/").2
     [] "/* joplin-manifest:" ["*/"] (by decide) (by decide) (by decide)
     (Or.inr ⟨"*/", [], by decide, by decide⟩)⟩

theorem loadPluginFromString_ok_lookup (env : Env) (st st' : SState) (pid b t : String) (p : Plugin)
    (h : loadPluginFromString env st pid b t = (st', .ok p)) : alookup pid st.plugins = none := by
  simp only [loadPluginFromString] at h
  split at h
  · cases congrArg Prod.snd h
  · exact loadPlugin_ok_lookup _ _ _ _ _ _ _ _ h

/-! ## Claim theorems: Plugin Loader -/

/-- C1: when the manifest parses and validates and the identifier is fresh,
the version gate decides everything: a strictly newer required version
yields an extension with `enabled = false` and no dispatched action, and a
satisfied requirement yields an enabled extension and exactly one
dispatched `PLUGIN_ADD` action carrying the identifier with empty views
and content-script maps. -/
theorem loadPlugin_version_gate (env : Env) (st : SState)
    (pluginId baseDir manifestText scriptText : String) (obj : ManifestObj) (m : Manifest)
    (hparse : env.jsonParse manifestText = some obj)
    (hval : env.validate (applyDefaultMinVersion obj) = .ok m)
    (hdup : alookup pluginId st.plugins = none) :
    (compareVersions env.appVersion m.app_min_version < 0 →
       ∃ p, (loadPlugin env st pluginId baseDir manifestText scriptText).2 = .ok p
         ∧ p.enabled = false
         ∧ (loadPlugin env st pluginId baseDir manifestText scriptText).1.dispatched
             = st.dispatched)
    ∧ (0 ≤ compareVersions env.appVersion m.app_min_version →
       ∃ p, (loadPlugin env st pluginId baseDir manifestText scriptText).2 = .ok p
         ∧ p.enabled = true
         ∧ (loadPlugin env st pluginId baseDir manifestText scriptText).1.dispatched
             = st.dispatched ++ [pluginAddAction pluginId]) := by
  have hd : (alookup pluginId st.plugins).isSome = false := by simp [hdup]
  constructor
  · intro hlt
    simp only [loadPlugin, hparse, hval, hd]
    rw [if_neg (by simp), if_pos hlt]
    split
    · exact ⟨_, rfl, by simp [Plugin.deprecationNotice], by simp [logInfo]⟩
    · exact ⟨_, rfl, rfl, by simp [logInfo]⟩
  · intro hge
    simp only [loadPlugin, hparse, hval, hd]
    rw [if_neg (by simp), if_neg (not_lt.mpr hge)]
    split
    · exact ⟨_, rfl, by simp [Plugin.deprecationNotice], by simp [dispatchAction]⟩
    · exact ⟨_, rfl, rfl, by simp [dispatchAction]⟩

/-- A pass-through manifest validator for concrete scenarios. -/
def passValidate : ManifestObj → Except String Manifest :=
  fun o =>
    match o.app_min_version with
    | some v => .ok ⟨v, o.extra⟩
    | none => .error "app_min_version missing"

/-- Concrete environment for the version-gate scenarios: host version 1.0,
one manifest requiring 2.0 and one requiring 1.0. -/
def env1 : Env :=
  ⟨"1.0",
   fun s =>
     if s = "manifest-w" then some ⟨some "2.0", []⟩
     else if s = "manifest-a" then some ⟨some "1.0", []⟩
     else none,
   passValidate,
   ⟨[], []⟩⟩

/-- Witness for C1: requiring 2.0 on a 1.0 host disables with no dispatch;
requiring 1.0 on a 1.0 host enables with exactly one `PLUGIN_ADD`. -/
theorem loadPlugin_version_gate_witness :
    (∃ p, (loadPlugin env1 initState "w" "dir" "manifest-w" "code").2 = .ok p
       ∧ p.enabled = false
       ∧ (loadPlugin env1 initState "w" "dir" "manifest-w" "code").1.dispatched
           = initState.dispatched)
    ∧ (∃ p, (loadPlugin env1 initState "a" "dir" "manifest-a" "code").2 = .ok p
       ∧ p.enabled = true
       ∧ (loadPlugin env1 initState "a" "dir" "manifest-a" "code").1.dispatched
           = initState.dispatched ++ [pluginAddAction "a"]) :=
  ⟨(loadPlugin_version_gate env1 initState "w" "dir" "manifest-w" "code"
      ⟨some "2.0", []⟩ ⟨"2.0", []⟩ (by decide) (by decide) (by decide)).1 (by decide),
   (loadPlugin_version_gate env1 initState "a" "dir" "manifest-a" "code"
      ⟨some "1.0", []⟩ ⟨"1.0", []⟩ (by decide) (by decide) (by decide)).2 (by decide)⟩

/-- C8: a manifest object lacking `app_min_version` is defaulted to `"1.4"`
before validation, the returned extension carries exactly one deprecation
notice tagged `"1.5"`, and the defaulting does not by itself disable the
extension: the enabled flag is still decided by the ordinary version
gate. -/
theorem loadPlugin_default_min_version (env : Env) (st : SState)
    (pluginId baseDir manifestText scriptText : String) (obj : ManifestObj) (m : Manifest)
    (hparse : env.jsonParse manifestText = some obj)
    (hmissing : obj.app_min_version = none)
    (hval : env.validate (applyDefaultMinVersion obj) = .ok m)
    (hdup : alookup pluginId st.plugins = none) :
    (applyDefaultMinVersion obj).app_min_version = some "1.4"
    ∧ ∃ p, (loadPlugin env st pluginId baseDir manifestText scriptText).2 = .ok p
        ∧ p.manifest = m
        ∧ p.deprecationNotices = [("1.5", appMinVersionNoticeMessage)]
        ∧ (p.enabled = false ↔ compareVersions env.appVersion m.app_min_version < 0) := by
  have hd : (alookup pluginId st.plugins).isSome = false := by simp [hdup]
  have hfalsy : jsFalsyStr obj.app_min_version = true := by simp [hmissing, jsFalsyStr]
  constructor
  · simp [applyDefaultMinVersion, hfalsy]
  · simp only [loadPlugin, hparse, hval, hd, hfalsy]
    rw [if_neg (by simp)]
    split
    · rename_i hlt
      exact ⟨_, rfl, rfl, by simp [Plugin.deprecationNotice], by simp [Plugin.deprecationNotice, hlt]⟩
    · rename_i hge
      exact ⟨_, rfl, rfl, by simp [Plugin.deprecationNotice], by simp [Plugin.deprecationNotice, hge]⟩

/-- Concrete environment for the defaulting scenario: host version 1.4 and
a manifest with no `app_min_version` field. -/
def env8 : Env :=
  ⟨"1.4",
   fun s => if s = "manifest-missing" then some ⟨none, []⟩ else none,
   passValidate,
   ⟨[], []⟩⟩

/-- Witness for C8: the defaulted object carries `"1.4"` and the loaded
extension carries the `"1.5"`-tagged notice while staying enabled on a
1.4 host. -/
theorem loadPlugin_default_min_version_witness :
    (applyDefaultMinVersion ⟨none, []⟩).app_min_version = some "1.4"
    ∧ ∃ p, (loadPlugin env8 initState "d" "dir" "manifest-missing" "code").2 = .ok p
        ∧ p.manifest = ⟨"1.4", []⟩
        ∧ p.deprecationNotices = [("1.5", appMinVersionNoticeMessage)]
        ∧ (p.enabled = false ↔ compareVersions env8.appVersion "1.4" < 0) :=
  loadPlugin_default_min_version env8 initState "d" "dir" "manifest-missing" "code"
    ⟨none, []⟩ ⟨"1.4", []⟩ (by decide) (by decide) (by decide) (by decide)

/-- General storeSet self-lookup used by duplicate detection. -/
theorem storeSet_alookup_self (m : List (String × Plugin)) (k : String) (v : Plugin)
    (h : alookup k m = none) : alookup k (storeSet m k v) = some v := by
  rw [storeSet_of_lookup_none m k v h]
  exact alookup_append_singleton_self m k v h

/-- C3: two source names that normalize to the same identifier collide:
after the first bundle is loaded under the first normalized identifier and
run, loading a second bundle (itself well-formed: it parses and validates)
under the second normalized identifier fails with DuplicateIdentifier, and
the state is returned untouched — no entity construction, no dispatch, no
log. -/
theorem loadPlugin_duplicate_identifier (env : Env) (st st1 : SState)
    (n1 n2 b1 b2 t1 t2 : String) (p : Plugin)
    (hid : makePluginId n1 = makePluginId n2)
    (h1 : loadPluginFromString env st (makePluginId n1) b1 t1 = (st1, .ok p))
    (r2 : ParsedBundle) (obj2 : ManifestObj) (m2 : Manifest)
    (hp2 : parsePluginJsBundle t2 = .ok r2)
    (hj2 : env.jsonParse r2.manifestText = some obj2)
    (hv2 : env.validate (applyDefaultMinVersion obj2) = .ok m2) :
    loadPluginFromString env (runPlugin st1 p) (makePluginId n2) b2 t2
      = (runPlugin st1 p, .error (.duplicateIdentifier (makePluginId n2))) := by
  have hpid : p.id = makePluginId n1 := loadPluginFromString_ok_id _ _ _ _ _ _ _ h1
  have hfr : st1.plugins = st.plugins := by
    have he := loadPluginFromString_plugins_eq env st (makePluginId n1) b1 t1
    rw [congrArg Prod.fst h1] at he
    exact he
  have hnone : alookup (makePluginId n1) st1.plugins = none := by
    rw [hfr]
    exact loadPluginFromString_ok_lookup _ _ _ _ _ _ _ h1
  have hlook : alookup (makePluginId n2) (runPlugin st1 p).plugins = some p := by
    simp only [runPlugin]
    rw [← hid, ← hpid]
    exact storeSet_alookup_self st1.plugins p.id p (by rw [hpid] ; exact hnone)
  have hsome : (alookup (makePluginId n2) (runPlugin st1 p).plugins).isSome = true := by
    simp [hlook]
  simp only [loadPluginFromString, hp2]
  simp only [loadPlugin, hj2, hv2, hsome]
  simp

/-- Concrete environment for the collision scenario. -/
def env3 : Env :=
  ⟨"1.4",
   fun s =>
     if s = "manifest-one" then some ⟨some "1.0", []⟩
     else if s = "manifest-two" then some ⟨some "1.2", []⟩
     else none,
   passValidate,
   ⟨[], []⟩⟩

def bundle3one : String := "/* joplin-manifest:\nmanifest-one\n*/\ncode-one"

def bundle3two : String := "/* joplin-manifest:\nmanifest-two\n*/\ncode-two"

def st3run : SState :=
  runPlugin (loadPluginFromString env3 initState (makePluginId "MyPlugin") "d1" bundle3one).1
    ⟨"myplugin", "d1", ⟨"1.0", []⟩, bundle3one, true, []⟩

/-- Witness for C3: `"MyPlugin"` and `"myplugin"` normalize to the same
identifier; the second load fails with DuplicateIdentifier without
touching the state. -/
theorem loadPlugin_duplicate_identifier_witness :
    loadPluginFromString env3 st3run (makePluginId "myplugin") "d2" bundle3two
      = (st3run, .error (.duplicateIdentifier (makePluginId "myplugin"))) :=
  loadPlugin_duplicate_identifier env3 initState
    (loadPluginFromString env3 initState (makePluginId "MyPlugin") "d1" bundle3one).1
    "MyPlugin" "myplugin" "d1" "d2" bundle3one bundle3two
    ⟨"myplugin", "d1", ⟨"1.0", []⟩, bundle3one, true, []⟩
    (by decide) (by decide)
    ⟨bundle3two, "manifest-two"⟩ ⟨some "1.2", []⟩ ⟨"1.2", []⟩
    (by decide) (by decide) (by decide)

/-! ## Claim theorems: Registry -/

/-- C10: loading alone never touches the registry — `loadPlugin`,
`loadPluginFromString` and `loadPluginFromPath` all leave the
identifier-to-extension mapping unchanged on every input, success or
failure; insertion happens only in `runPlugin`. -/
theorem load_registry_unchanged (env : Env) (st : SState) (pid b mt sc : String) :
    (loadPlugin env st pid b mt sc).1.plugins = st.plugins
    ∧ (loadPluginFromString env st pid b mt).1.plugins = st.plugins
    ∧ (loadPluginFromPath env st pid).1.plugins = st.plugins :=
  ⟨loadPlugin_plugins_eq env st pid b mt sc,
   loadPluginFromString_plugins_eq env st pid b mt,
   loadPluginFromPath_plugins_eq env st pid⟩

/-- Concrete environment for the overwrite scenario. -/
def env9 : Env := env3

def st9a : SState :=
  (loadPluginFromString env9 initState "x" "d" bundle3one).1

def st9b : SState :=
  (loadPluginFromString env9 st9a "x" "d" bundle3two).1

def p9one : Plugin := ⟨"x", "d", ⟨"1.0", []⟩, bundle3one, true, []⟩

def p9two : Plugin := ⟨"x", "d", ⟨"1.2", []⟩, bundle3two, true, []⟩

/-- C9 counterexample: two loads of the same identifier both succeed when
neither has been run yet (the duplicate check consults the registry, which
is only written by `runPlugin`); running both then makes the second run
replace the first entry — an insertion that overwrites, contradicting the
claim that no insertion ever overwrites an existing entry. -/
theorem runPlugin_overwrite_counterexample :
    (loadPluginFromString env9 initState "x" "d" bundle3one).2 = .ok p9one
    ∧ (loadPluginFromString env9 st9a "x" "d" bundle3two).2 = .ok p9two
    ∧ (runPlugin st9b p9one).plugins = [("x", p9one)]
    ∧ (runPlugin (runPlugin st9b p9one) p9two).plugins = [("x", p9two)]
    ∧ p9one ≠ p9two := by
  exact ⟨by decide, by decide, by decide, by decide, by decide⟩

/-- C9 (amended): `runPlugin` performs an unconditional keyed insert, so
uniqueness holds only in the load-then-run discipline of the batch loop:
an extension that was just loaded has a fresh identifier, its run is a
pure append, and key-uniqueness of the registry is preserved.  Two loads
of one identifier that both complete before being run do overwrite. -/
theorem runPlugin_fresh_insert (env : Env) (st st' : SState)
    (pid b mt sc : String) (p : Plugin)
    (h : loadPlugin env st pid b mt sc = (st', .ok p)) :
    alookup p.id st'.plugins = none
    ∧ (runPlugin st' p).plugins = st'.plugins ++ [(p.id, p)]
    ∧ ((st'.plugins.map Prod.fst).Nodup → ((runPlugin st' p).plugins.map Prod.fst).Nodup) := by
  have hpid : p.id = pid := loadPlugin_ok_id _ _ _ _ _ _ _ _ h
  have hfr : st'.plugins = st.plugins := by
    have he := loadPlugin_plugins_eq env st pid b mt sc
    rw [congrArg Prod.fst h] at he
    exact he
  have hnone : alookup p.id st'.plugins = none := by
    rw [hfr, hpid]
    exact loadPlugin_ok_lookup _ _ _ _ _ _ _ _ h
  refine ⟨hnone, ?_, ?_⟩
  · simp only [runPlugin]
    exact storeSet_of_lookup_none _ _ _ hnone
  · intro hnd
    simp only [runPlugin, storeSet_of_lookup_none _ _ _ hnone, List.map_append]
    rw [List.nodup_append]
    refine ⟨hnd, List.nodup_singleton _, ?_⟩
    intro a ha hb
    simp only [List.map_cons, List.map_nil, List.mem_singleton] at hb
    subst hb
    exact alookup_none_not_mem _ _ hnone ha

/-- Witness for C9 (amended): a fresh load-then-run appends a single entry
and keeps registry keys unique. -/
theorem runPlugin_fresh_insert_witness :
    alookup "a" (loadPlugin env1 initState "a" "dir" "manifest-a" "code").1.plugins = none
    ∧ (runPlugin (loadPlugin env1 initState "a" "dir" "manifest-a" "code").1
          ⟨"a", "dir", ⟨"1.0", []⟩, "code", true, []⟩).plugins
        = (loadPlugin env1 initState "a" "dir" "manifest-a" "code").1.plugins
            ++ [("a", ⟨"a", "dir", ⟨"1.0", []⟩, "code", true, []⟩)]
    ∧ (((loadPlugin env1 initState "a" "dir" "manifest-a" "code").1.plugins.map Prod.fst).Nodup →
        ((runPlugin (loadPlugin env1 initState "a" "dir" "manifest-a" "code").1
            ⟨"a", "dir", ⟨"1.0", []⟩, "code", true, []⟩).plugins.map Prod.fst).Nodup) :=
  runPlugin_fresh_insert env1 initState
    (loadPlugin env1 initState "a" "dir" "manifest-a" "code").1
    "a" "dir" "manifest-a" "code"
    ⟨"a", "dir", ⟨"1.0", []⟩, "code", true, []⟩ (by decide)

/-! ## Claim theorems: Batch Orchestrator and Path Resolver -/

/-- C2: one failing candidate never aborts the batch: with an explicit list
split as `pre ++ bad :: post` where loading `bad` (not underscore-skipped)
fails with any error of the taxonomy, the orchestrator still returns
normally, processing continues over all of `post` from the state reached
after `bad`, and that state carries exactly one new error-log entry, whose
message names the failing candidate's path. -/
theorem loadAndRunPlugins_failure_isolation (env : Env) (st : SState)
    (pre post : List String) (bad : String) (e : LoadErr)
    (hname : jStartsWith bad "_" = false)
    (hfail : (loadPluginFromPath env (pre.foldl (processPath env) st) bad).2 = .error e) :
    loadAndRunPlugins env st (.paths (pre ++ bad :: post))
      = (post.foldl (processPath env)
           (processPath env (pre.foldl (processPath env) st) bad), .ok ())
    ∧ (processPath env (pre.foldl (processPath env) st) bad).errorLog
        = (pre.foldl (processPath env) st).errorLog ++ [(couldNotLoadMessage bad, e)] := by
  constructor
  · simp [loadAndRunPlugins, candidatePaths, List.foldl_append]
  · have heq : loadPluginFromPath env (pre.foldl (processPath env) st) bad
        = ((loadPluginFromPath env (pre.foldl (processPath env) st) bad).1, .error e) := by
      rw [← hfail]
    have hlog := loadPluginFromPath_errorLog_eq env (pre.foldl (processPath env) st) bad
    simp only [processPath, hname]
    rw [heq]
    simp [logError, hlog]

/-- Concrete environment for the batch scenario: three `.js` candidates, the
middle one lacking a manifest block. -/
def env2 : Env :=
  ⟨"1.4",
   fun s =>
     if s = "manifest-a" then some ⟨some "1.0", []⟩
     else if s = "manifest-c" then some ⟨some "1.0", []⟩
     else none,
   passValidate,
   ⟨[("plugins/a.js", "/* joplin-manifest:\nmanifest-a\n*/\ncode"),
     ("plugins/bad.js", "no manifest here"),
     ("plugins/c.js", "/* joplin-manifest:\nmanifest-c\n*/\ncode")], []⟩⟩

/-- Witness for C2: in the three-candidate batch the middle candidate fails
with ManifestNotFound, the first and third are still loaded and run, and
exactly one error entry naming the middle path is logged. -/
theorem loadAndRunPlugins_failure_isolation_witness :
    (loadPluginFromPath env2 (["plugins/a.js"].foldl (processPath env2) initState)
        "plugins/bad.js").2 = .error .manifestNotFound
    ∧ (loadAndRunPlugins env2 initState
          (.paths ["plugins/a.js", "plugins/bad.js", "plugins/c.js"])
        = (["plugins/c.js"].foldl (processPath env2)
             (processPath env2 (["plugins/a.js"].foldl (processPath env2) initState)
               "plugins/bad.js"), .ok ())
      ∧ (processPath env2 (["plugins/a.js"].foldl (processPath env2) initState)
            "plugins/bad.js").errorLog
          = (["plugins/a.js"].foldl (processPath env2) initState).errorLog
              ++ [(couldNotLoadMessage "plugins/bad.js", .manifestNotFound)])
    ∧ (loadAndRunPlugins env2 initState
          (.paths ["plugins/a.js", "plugins/bad.js", "plugins/c.js"])).1.ran = ["a", "c"]
    ∧ (loadAndRunPlugins env2 initState
          (.paths ["plugins/a.js", "plugins/bad.js", "plugins/c.js"])).1.errorLog
        = [(couldNotLoadMessage "plugins/bad.js", .manifestNotFound)] :=
  ⟨by decide,
   loadAndRunPlugins_failure_isolation env2 initState ["plugins/a.js"] ["plugins/c.js"]
     "plugins/bad.js" .manifestNotFound (by decide) (by decide),
   by decide, by decide⟩

/-- Concrete environment for the underscore scenario: a plugin file whose
base name starts with `_`, reachable both as an explicit path and by
directory enumeration. -/
def env4 : Env :=
  ⟨"1.4",
   fun s => if s = "manifest-u" then some ⟨some "1.0", []⟩ else none,
   passValidate,
   ⟨[("plugins/_foo.js", "/* joplin-manifest:\nmanifest-u\n*/\ncode")],
    [("plugins", [⟨"_foo.js", false⟩])]⟩⟩

/-- C4 (code bug): the skip check tests the full candidate path, not the
base name, so `plugins/_foo.js` — whose base name starts with the reserved
`_` — is not skipped: it reaches the Path Resolver, is loaded, run, and
appears in the Registry with no informational skip entry, both for a
caller-supplied list and for directory enumeration. -/
theorem underscore_basename_not_skipped :
    jStartsWith (filename "plugins/_foo.js") "_" = true
    ∧ jStartsWith "plugins/_foo.js" "_" = false
    ∧ (alookup "_foo"
        (loadAndRunPlugins env4 initState (.paths ["plugins/_foo.js"])).1.plugins).isSome = true
    ∧ (loadAndRunPlugins env4 initState (.paths ["plugins/_foo.js"])).1.ran = ["_foo"]
    ∧ (loadAndRunPlugins env4 initState (.paths ["plugins/_foo.js"])).1.infoLog = []
    ∧ (loadAndRunPlugins env4 initState (.dir "plugins")).1.ran = ["_foo"] := by
  exact ⟨by decide, by decide, by decide, by decide, by decide, by decide⟩

def bundle6 : String := "/* joplin-manifest:\nmanifest-m\n*/\ncode"

/-- Concrete environment for the `.js` identifier scenario. -/
def env6 : Env :=
  ⟨"1.4",
   fun s => if s = "manifest-m" then some ⟨some "1.0", []⟩ else none,
   passValidate,
   ⟨[("plugins/MyPlugin.js", bundle6)], []⟩⟩

/-- C6 counterexample: loading the single script file `plugins/MyPlugin.js`
yields the identifier `"MyPlugin"` taken verbatim from the file's base
name, not the normalized slug `"myplugin"` that the Identifier Assigner
(`makePluginId`) would produce, contradicting the claim that the `.js`
branch derives the identifier via that normalization. -/
theorem js_identifier_not_normalized :
    (loadPluginFromPath env6 initState "plugins/MyPlugin.js").2
        = .ok ⟨"MyPlugin", "plugins", ⟨"1.0", []⟩, bundle6, true, []⟩
    ∧ makePluginId "MyPlugin" = "myplugin"
    ∧ ("MyPlugin" : String) ≠ "myplugin" := by
  exact ⟨by decide, by decide, by decide⟩

/-- C6 (amended): for a path with the `.js` extension, the Path Resolver
uses the file's base name without its extension, verbatim (no slug
normalization, no truncation), as the identifier, the file's directory as
the base directory, and delegates the file content to the string loader
(manifest-block extraction then the Plugin Loader); any successful load
returns an extension whose identifier is that verbatim base name. -/
theorem loadPluginFromPath_js_identifier (env : Env) (st : SState) (path content : String)
    (hjs : jEndsWith (jToLower (rtrimSlashes path)) ".js" = true)
    (hread : env.fs.readFile (rtrimSlashes path) = .ok content) :
    loadPluginFromPath env st path
      = loadPluginFromString env st (filename (rtrimSlashes path))
          (dirname (rtrimSlashes path)) content
    ∧ ∀ st' p, loadPluginFromPath env st path = (st', .ok p) →
        p.id = filename (rtrimSlashes path) := by
  have hdeleg : loadPluginFromPath env st path
      = loadPluginFromString env st (filename (rtrimSlashes path))
          (dirname (rtrimSlashes path)) content := by
    simp only [loadPluginFromPath, hjs, hread]
    simp
  refine ⟨hdeleg, ?_⟩
  intro st' p h
  rw [hdeleg] at h
  exact loadPluginFromString_ok_id _ _ _ _ _ _ _ h

/-- Witness for C6 (amended): `plugins/MyPlugin.js` delegates with the
verbatim identifier `"MyPlugin"` and directory `"plugins"`. -/
theorem loadPluginFromPath_js_identifier_witness :
    jEndsWith (jToLower (rtrimSlashes "plugins/MyPlugin.js")) ".js" = true
    ∧ loadPluginFromPath env6 initState "plugins/MyPlugin.js"
        = loadPluginFromString env6 initState (filename (rtrimSlashes "plugins/MyPlugin.js"))
            (dirname (rtrimSlashes "plugins/MyPlugin.js")) bundle6 :=
  ⟨by decide,
   (loadPluginFromPath_js_identifier env6 initState "plugins/MyPlugin.js" bundle6
      (by decide) (by decide)).1⟩

end PluginSpec
